import Mathlib

/-!
# Verification of the agentic-x402 payment watcher

A shallow embedding of `src/scripts/plugin/watcher.ts` (class `PaymentWatcher`
and the module-level helper `formatUnitsLocal`), together with theorems about
the watcher's detection, error-handling, registry and formatting behaviour.

Modelling conventions:
* `bigint` balances (uint256 `balanceOf` results) are `Nat`.
* Timestamps (`Date.now()`, `Date`) are `Nat`; `0` is the sentinel used by the
  source for "never checked" (JS falsy).
* The `Map<string, TrackedRouter>` is an insertion-ordered association list
  keyed by the lower-cased address, exactly as the source keys the map.
* Effects are made explicit: the discovery fetch outcome, the per-account
  balance query outcome and the hook-delivery outcome are inputs to a cycle;
  thrown JS exceptions are `Except.error` / `Option.none`.
* Writes to the `isPolling` re-entrancy guard are recorded in an explicit
  trace (`guardWrites`) so that the guard discipline can be stated.
-/

/-- Numeric value of a decimal digit character (`c - '0'`). -/
def digitVal (c : Char) : Nat := c.toNat - '0'.toNat

/-- Value of a big-endian list of decimal digit characters. -/
def ofDigitsBE (l : List Char) : Nat := l.foldl (fun a c => a * 10 + digitVal c) 0

/-- Fuelled base-10 digit renderer: embedding of JS `BigInt.prototype.toString()`
(which yields the decimal digit string, most significant digit first, `"0"` for zero).
Mirrors the structure of the core `Nat.toDigitsCore` printer at base 10. -/
def decCharsCore : Nat → Nat → List Char → List Char
  | 0, _, acc => acc
  | fuel + 1, n, acc =>
    let acc' := Nat.digitChar (n % 10) :: acc
    if n < 10 then acc' else decCharsCore fuel (n / 10) acc'

/-- Decimal digit characters of `n`, embedding `value.toString()` in the source. -/
def decChars (n : Nat) : List Char := decCharsCore (n + 1) n []

/-- JS `String.prototype.padStart(n, '0')` on a char list. -/
def padStartZeros (l : List Char) (n : Nat) : List Char :=
  List.replicate (n - l.length) '0' ++ l

/-- JS `String.prototype.padEnd(n, '0')` on a char list. -/
def padEndZeros (l : List Char) (n : Nat) : List Char :=
  l ++ List.replicate (n - l.length) '0'

/-- JS `fracPart.replace(/0+$/, '')`: drop all trailing `'0'` characters. -/
def trimTrailingZeros (l : List Char) : List Char :=
  (l.reverse.dropWhile (fun c => c == '0')).reverse

/-- Embedding of `formatUnitsLocal` (watcher.ts): format a raw integer with the
given number of decimals, trimming trailing zeros but keeping at least two
fractional digits. -/
def formatUnitsLocal (value : Nat) (decimals : Nat) : String :=
  let str := padStartZeros (decChars value) (decimals + 1)
  let ip := str.take (str.length - decimals)
  let intPart := if ip.isEmpty then ['0'] else ip
  let fracPart := str.drop (str.length - decimals)
  let trimmed := padEndZeros (trimTrailingZeros fracPart) 2
  ⟨intPart ++ '.' :: trimmed⟩

/-- Split a char list at the first `'.'` (helper for the round-trip observer). -/
def splitAtDot : List Char → List Char × List Char
  | [] => ([], [])
  | c :: cs => if c = '.' then ([], cs) else (c :: (splitAtDot cs).1, (splitAtDot cs).2)

/-- Spec-side observer for P5: read a decimal string back, re-scale it by
`10 ^ D` and round to the nearest integer. -/
def rescaleByPow10Round (s : String) (D : Nat) : Nat :=
  let ip := (splitAtDot s.data).1
  let fp := (splitAtDot s.data).2
  let den := 10 ^ fp.length
  ((ofDigitsBE ip * den + ofDigitsBE fp) * 10 ^ D + den / 2) / den

/-- Embedding of JS `String.prototype.toLowerCase()`: lower-case every
character (same as core `String.toLower`, stated over the char list so that it
evaluates by kernel reduction). -/
def lowerAddr (s : String) : String := ⟨s.data.map Char.toLower⟩

/-- The `TrackedRouter` record from types.ts: one watched account. -/
structure TrackedRouter where
  address : String
  name : String
  lastBalance : Nat
  lastChecked : Nat
deriving DecidableEq

/-- The watcher's `Map<string, TrackedRouter>`: insertion-ordered entries keyed
by the lower-cased address. -/
abbrev Registry := List (String × TrackedRouter)

/-- Embedding of `Map.has` on the registry. -/
def Registry.hasKey (reg : Registry) (k : String) : Bool :=
  reg.any (fun e => e.1 == k)

/-- The `PaymentEvent` record from types.ts (balance fields are formatted strings). -/
structure PaymentEvent where
  routerAddress : String
  routerName : String
  previousBalance : String
  newBalance : String
  increase : String
  detectedAt : Nat
deriving DecidableEq

/-- Outcome of one hook POST to the notification endpoint. -/
inductive DeliveryOutcome
  | delivered
  | httpError (status : Nat)
  | networkError
deriving DecidableEq

/-- One `links` array element of the discovery response. -/
structure DiscoveredLink where
  router_address : String
  name : Option String
deriving DecidableEq

/-- Outcome of one discovery call (`fetch` of the beneficiary links API). -/
inductive DiscoveryResult
  | throwErr
  | httpError (status : Nat)
  | apiFailure
  | ok (links : List DiscoveredLink)
deriving DecidableEq

/-- All effect outcomes one cycle can observe. -/
structure CycleInput where
  discovery : DiscoveryResult
  query : String → Option Nat
  delivery : PaymentEvent → DeliveryOutcome
  now : Nat

/-- Constructor options (watcher.ts `WatcherOptions`). -/
structure WatcherOptions where
  gatewayPort : Nat
  pollIntervalMs : Option Nat
  notifyOnPayment : Option Bool

/-- The constructor-fixed configuration fields of the watcher. -/
structure WatcherConfig where
  gatewayPort : Nat
  pollIntervalMs : Nat
  notifyOnPayment : Bool

/-- The mutable fields of the watcher. -/
structure WatcherState where
  trackedRouters : Registry
  paymentsDetected : Nat
  lastPollAt : Option Nat
  timerArmed : Bool
  isPolling : Bool
  seeded : Bool
deriving DecidableEq

/-- Result of the sampling pass over the registry. -/
structure CycleOutcome where
  registry : Registry
  paymentsDetected : Nat
  events : List PaymentEvent
  hooks : List PaymentEvent
deriving DecidableEq

/-- Result of one timer fire, with the trace of writes to `isPolling`. -/
structure PollResult where
  state : WatcherState
  events : List PaymentEvent
  hooks : List PaymentEvent
  guardWrites : List Bool
deriving DecidableEq

/-- Outcome of handling a single router inside `checkBalances`'s loop body. -/
structure RouterOutcome where
  router : TrackedRouter
  detected : Option PaymentEvent
  hookAttempt : Option PaymentEvent
deriving DecidableEq

/-- Abstract stand-in for `Date.toISOString()`: an injective rendering of the
model timestamp. -/
def isoString (t : Nat) : String := ⟨decChars t⟩

/-- One element of the status record's `trackedRouters` array (types.ts). -/
structure RouterStatusEntry where
  address : String
  name : String
  balance : String
  lastChecked : String
deriving DecidableEq

/-- The `WatcherStatus` record (types.ts). -/
structure WatcherStatus where
  running : Bool
  pollIntervalMs : Nat
  trackedRouters : List RouterStatusEntry
  paymentsDetected : Nat
  lastPollAt : Option String
deriving DecidableEq

namespace PaymentWatcher

/-- The constructor: applies the `?? 30_000` and `?? true` option defaults. -/
def mkWatcherConfig (o : WatcherOptions) : WatcherConfig :=
  { gatewayPort := o.gatewayPort
    pollIntervalMs := o.pollIntervalMs.getD 30000
    notifyOnPayment := o.notifyOnPayment.getD true }

/-- The field initializers of the class: state of a freshly constructed watcher. -/
def initialState : WatcherState :=
  { trackedRouters := []
    paymentsDetected := 0
    lastPollAt := none
    timerArmed := false
    isPolling := false
    seeded := false }

/-- Loop body of `refreshRouters`: add the link if its lower-cased address is
not yet tracked, otherwise leave the registry untouched. -/
def upsertRouter (reg : Registry) (link : DiscoveredLink) : Registry :=
  let addr := lowerAddr link.router_address
  if reg.hasKey addr then reg
  else
    reg ++ [(addr,
      { address := link.router_address
        name := link.name.getD "Unnamed"
        lastBalance := 0
        lastChecked := 0 })]

/-- Embedding of `refreshRouters()`: a thrown fetch/parse error propagates (`Except.error`);
a non-ok HTTP status or `success=false`/missing `links` returns early with the
registry unchanged; otherwise every link is upserted. -/
def refreshRouters (reg : Registry) (d : DiscoveryResult) : Except Unit Registry :=
  match d with
  | .throwErr => .error ()
  | .httpError _ => .ok reg
  | .apiFailure => .ok reg
  | .ok links => .ok (links.foldl upsertRouter reg)

/-- The `PaymentEvent` built for a detected increase. -/
def mkEvent (r : TrackedRouter) (previous balance now : Nat) : PaymentEvent :=
  { routerAddress := r.address
    routerName := r.name
    previousBalance := formatUnitsLocal previous 6
    newBalance := formatUnitsLocal balance 6
    increase := formatUnitsLocal (balance - previous) 6
    detectedAt := now }

/-- Embedding of `sendHook(event)`: POSTs the event; a non-ok response is only logged, and a
thrown fetch error is caught inside `sendHook` — every outcome returns
normally. -/
def sendHook (outcome : DeliveryOutcome) : Except Unit Unit :=
  match outcome with
  | .delivered => .ok ()
  | .httpError _ => .ok ()
  | .networkError => .ok ()

/-- Body of `checkBalances`'s per-router loop iteration (the `try`/`catch`
around one `balanceOf` read): on failure the router is untouched; on success
the stored balance and timestamp are updated unconditionally, and (post-seed)
a strict increase yields an event, with a hook attempt when notifications are
enabled. -/
def checkRouter (seeded notify : Bool) (inp : CycleInput) (r : TrackedRouter) :
    RouterOutcome :=
  match inp.query r.address with
  | none => { router := r, detected := none, hookAttempt := none }
  | some balance =>
    let previous := r.lastBalance
    let r' := { r with lastBalance := balance, lastChecked := inp.now }
    if !seeded then { router := r', detected := none, hookAttempt := none }
    else if previous < balance then
      let event := mkEvent r previous balance inp.now
      if notify then
        match sendHook (inp.delivery event) with
        | .ok () => { router := r', detected := some event, hookAttempt := some event }
        | .error () => { router := r', detected := some event, hookAttempt := some event }
      else { router := r', detected := some event, hookAttempt := none }
    else { router := r', detected := none, hookAttempt := none }

/-- One iteration of `checkBalances`'s loop: handle the entry and accumulate
the updated router, the counter increment and the emitted event. -/
def checkStep (seeded notify : Bool) (inp : CycleInput) (acc : CycleOutcome)
    (entry : String × TrackedRouter) : CycleOutcome :=
  let o := checkRouter seeded notify inp entry.2
  { registry := acc.registry ++ [(entry.1, o.router)]
    paymentsDetected := acc.paymentsDetected + (if o.detected.isSome then 1 else 0)
    events := acc.events ++ o.detected.toList
    hooks := acc.hooks ++ o.hookAttempt.toList }

/-- Embedding of `checkBalances()`: fold the per-router handler over the registry, counting
each detected increase in `paymentsDetected`. -/
def checkBalances (seeded notify : Bool) (inp : CycleInput) (reg : Registry)
    (pd : Nat) : CycleOutcome :=
  reg.foldl (checkStep seeded notify inp)
    { registry := [], paymentsDetected := pd, events := [], hooks := [] }

/-- Embedding of `poll()`: drop the fire if `isPolling` is set; otherwise set the guard, run
discovery then sampling, record `lastPollAt`, and clear the guard on every exit
path (a thrown discovery error is caught at the cycle boundary and the
`finally` still clears the guard). -/
def poll (cfg : WatcherConfig) (s : WatcherState) (inp : CycleInput) : PollResult :=
  if s.isPolling then
    { state := s, events := [], hooks := [], guardWrites := [] }
  else
    let s1 := { s with isPolling := true }
    match refreshRouters s1.trackedRouters inp.discovery with
    | .error () =>
      { state := { s1 with isPolling := false }
        events := [], hooks := [], guardWrites := [true, false] }
    | .ok reg1 =>
      let out := checkBalances s1.seeded cfg.notifyOnPayment inp reg1 s1.paymentsDetected
      { state :=
          { s1 with
            trackedRouters := out.registry
            paymentsDetected := out.paymentsDetected
            lastPollAt := some inp.now
            isPolling := false }
        events := out.events, hooks := out.hooks, guardWrites := [true, false] }

/-- Embedding of `start()`: arm the timer first, then run the initial poll, then set
`seeded := true` (whatever happened in the poll). -/
def start (cfg : WatcherConfig) (s : WatcherState) (inp : CycleInput) : PollResult :=
  let sArmed := { s with timerArmed := true }
  let p := poll cfg sArmed inp
  { p with state := { p.state with seeded := true } }

/-- Embedding of `stop()`: clear the timer; nothing else changes. -/
def stop (s : WatcherState) : WatcherState := { s with timerArmed := false }

/-- Embedding of `getStatus()`: pure read of the runtime state plus a registry snapshot. -/
def getStatus (cfg : WatcherConfig) (s : WatcherState) : WatcherStatus :=
  { running := s.timerArmed
    pollIntervalMs := cfg.pollIntervalMs
    trackedRouters := s.trackedRouters.map (fun e =>
      { address := e.2.address
        name := e.2.name
        balance := formatUnitsLocal e.2.lastBalance 6
        lastChecked := if e.2.lastChecked ≠ 0 then isoString e.2.lastChecked else "never" })
    paymentsDetected := s.paymentsDetected
    lastPollAt := s.lastPollAt.map isoString }

/-- Repeatedly sample one router (post-seed) with the successive balance
readings `bs`, collecting the events emitted along the way. -/
def runSamples (notify : Bool) (delivery : PaymentEvent → DeliveryOutcome) (now : Nat)
    (r : TrackedRouter) (bs : List Nat) : TrackedRouter × List PaymentEvent :=
  match bs with
  | [] => (r, [])
  | b :: rest =>
    let o := checkRouter true notify
      { discovery := .apiFailure, query := fun _ => some b, delivery := delivery, now := now } r
    let tail := runSamples notify delivery now o.router rest
    (tail.1, o.detected.toList ++ tail.2)

/-- Spec-side description of P2: walking the sample sequence with the running
previous balance, an event appears exactly at each strict increase, carrying
the formatted raw difference. -/
def increaseEvents (address name : String) (now : Nat) : Nat → List Nat → List PaymentEvent
  | _, [] => []
  | prev, b :: rest =>
    (if prev < b then
      [{ routerAddress := address
         routerName := name
         previousBalance := formatUnitsLocal prev 6
         newBalance := formatUnitsLocal b 6
         increase := formatUnitsLocal (b - prev) 6
         detectedAt := now }]
     else []) ++ increaseEvents address name now b rest

end PaymentWatcher

/-! ## Concrete fixtures -/

/-- A tracked account as seeded from discovery. -/
def routerA : TrackedRouter :=
  { address := "0xAA", name := "Alpha", lastBalance := 0, lastChecked := 0 }

/-- A second tracked account. -/
def routerB : TrackedRouter :=
  { address := "0xBB", name := "Beta", lastBalance := 3, lastChecked := 1 }

/-- An account whose balance query will fail. -/
def routerK : TrackedRouter :=
  { address := "0xKK", name := "Kappa", lastBalance := 9, lastChecked := 1 }

/-- A discovery link for `routerA`. -/
def linkA : DiscoveredLink := { router_address := "0xAA", name := some "Alpha" }

/-- The same address as `linkA` in different casing with a different label. -/
def linkACased : DiscoveredLink := { router_address := "0xaA", name := some "Alpha2" }

/-- Watcher config with defaulted options. -/
def cfg0 : WatcherConfig :=
  PaymentWatcher.mkWatcherConfig
    { gatewayPort := 18789, pollIntervalMs := none, notifyOnPayment := none }

/-- A seeded state tracking `routerA`. -/
def stateA : WatcherState :=
  { trackedRouters := [("0xaa", routerA)], paymentsDetected := 0, lastPollAt := none
    timerArmed := true, isPolling := false, seeded := true }

/-- A seeded state with an empty registry. -/
def stateSeededEmpty : WatcherState :=
  { trackedRouters := [], paymentsDetected := 0, lastPollAt := none
    timerArmed := true, isPolling := false, seeded := true }

/-- A not-yet-seeded state tracking `routerA`. -/
def stateUnseeded : WatcherState :=
  { trackedRouters := [("0xaa", routerA)], paymentsDetected := 0, lastPollAt := none
    timerArmed := true, isPolling := false, seeded := false }

/-- Cycle input whose discovery call throws; balance queries would succeed. -/
def inputThrow : CycleInput :=
  { discovery := .throwErr, query := fun _ => some 100
    delivery := fun _ => .delivered, now := 5 }

/-- Cycle input that discovers `routerA` and samples balance 5 everywhere. -/
def inputDiscover5 : CycleInput :=
  { discovery := .ok [linkA], query := fun _ => some 5
    delivery := fun _ => .delivered, now := 7 }

/-- Cycle input whose discovery call returns HTTP 500. -/
def inputHttp500 : CycleInput :=
  { discovery := .httpError 500, query := fun _ => some 100
    delivery := fun _ => .delivered, now := 9 }

/-- Balance oracle failing exactly on `routerK`. -/
def qK : String → Option Nat := fun a => if a = "0xKK" then none else some 7

/-- Cycle input using `qK`. -/
def inputQK : CycleInput :=
  { discovery := .apiFailure, query := qK, delivery := fun _ => .delivered, now := 11 }

/-! ## Formatting lemmas -/

theorem digitVal_digitChar {d : Nat} (h : d < 10) : digitVal (Nat.digitChar d) = d := by
  interval_cases d <;> rfl

theorem isDigit_digitChar {d : Nat} (h : d < 10) : (Nat.digitChar d).isDigit = true := by
  interval_cases d <;> decide

theorem ne_dot_of_isDigit {c : Char} (h : c.isDigit = true) : c ≠ '.' := by
  intro hc
  subst hc
  exact absurd h (by decide)

theorem foldl_digits_acc (l : List Char) (acc : Nat) :
    l.foldl (fun a c => a * 10 + digitVal c) acc = acc * 10 ^ l.length + ofDigitsBE l := by
  induction l generalizing acc with
  | nil => simp [ofDigitsBE]
  | cons c t ih =>
    show t.foldl _ (acc * 10 + digitVal c) = _
    rw [ih]
    have h2 : ofDigitsBE (c :: t) = digitVal c * 10 ^ t.length + ofDigitsBE t := by
      show t.foldl _ (0 * 10 + digitVal c) = _
      rw [ih]
      ring_nf
    rw [h2, List.length_cons, pow_succ]
    ring

theorem ofDigitsBE_append (a b : List Char) :
    ofDigitsBE (a ++ b) = ofDigitsBE a * 10 ^ b.length + ofDigitsBE b := by
  show (a ++ b).foldl _ 0 = _
  rw [List.foldl_append]
  exact foldl_digits_acc b _

theorem ofDigitsBE_replicate_zero (k : Nat) : ofDigitsBE (List.replicate k '0') = 0 := by
  induction k with
  | zero => rfl
  | succ n ih =>
    show ofDigitsBE ('0' :: List.replicate n '0') = 0
    show (List.replicate n '0').foldl _ (0 * 10 + digitVal '0') = 0
    have : (0 : Nat) * 10 + digitVal '0' = 0 := by decide
    rw [this]
    exact ih

theorem ofDigitsBE_pad (k : Nat) (l : List Char) :
    ofDigitsBE (List.replicate k '0' ++ l) = ofDigitsBE l := by
  rw [ofDigitsBE_append, ofDigitsBE_replicate_zero]
  ring

theorem decCharsCore_spec (fuel : Nat) :
    ∀ n acc, n < 10 ^ fuel → 0 < fuel →
      ∃ ds, decCharsCore fuel n acc = ds ++ acc ∧ ofDigitsBE ds = n ∧ ds ≠ [] ∧
        ∀ c ∈ ds, c.isDigit = true := by
  induction fuel with
  | zero => intro n acc _ h0; exact absurd h0 (lt_irrefl 0)
  | succ f ih =>
    intro n acc hn _
    show ∃ ds, (if n < 10 then Nat.digitChar (n % 10) :: acc
        else decCharsCore f (n / 10) (Nat.digitChar (n % 10) :: acc)) = ds ++ acc ∧ _
    by_cases hlt : n < 10
    · refine ⟨[Nat.digitChar (n % 10)], ?_, ?_, by simp, ?_⟩
      · simp [hlt]
      · show (0 : Nat) * 10 + digitVal (Nat.digitChar (n % 10)) = n
        rw [digitVal_digitChar (Nat.mod_lt n (by norm_num))]
        omega
      · intro c hc
        rw [List.mem_singleton] at hc
        subst hc
        exact isDigit_digitChar (Nat.mod_lt n (by norm_num))
    · have hdiv : n / 10 < 10 ^ f := by
        rw [Nat.div_lt_iff_lt_mul (by norm_num)]
        calc n < 10 ^ (f + 1) := hn
          _ = 10 ^ f * 10 := by rw [pow_succ]
      have hf : 0 < f := by
        rcases Nat.eq_zero_or_pos f with hf0 | hf0
        · subst hf0
          simp at hdiv
          omega
        · exact hf0
      obtain ⟨ds, heq, hval, hne, hdig⟩ := ih (n / 10) (Nat.digitChar (n % 10) :: acc) hdiv hf
      refine ⟨ds ++ [Nat.digitChar (n % 10)], ?_, ?_, by simp, ?_⟩
      · simp [hlt, heq]
      · rw [ofDigitsBE_append, hval]
        show n / 10 * 10 ^ (1 : Nat) + ((0 : Nat) * 10 + digitVal (Nat.digitChar (n % 10))) = n
        rw [digitVal_digitChar (Nat.mod_lt n (by norm_num))]
        omega
      · intro c hc
        rcases List.mem_append.mp hc with h | h
        · exact hdig c h
        · rw [List.mem_singleton] at h
          subst h
          exact isDigit_digitChar (Nat.mod_lt n (by norm_num))

theorem decChars_spec (n : Nat) :
    ofDigitsBE (decChars n) = n ∧ decChars n ≠ [] ∧ ∀ c ∈ decChars n, c.isDigit = true := by
  have hlt : n < 10 ^ (n + 1) :=
    lt_of_lt_of_le (Nat.lt_pow_self (by norm_num) n) (Nat.pow_le_pow_right (by norm_num) (Nat.le_succ n))
  obtain ⟨ds, heq, hval, hne, hdig⟩ := decCharsCore_spec (n + 1) n [] hlt (Nat.succ_pos n)
  unfold decChars
  rw [heq, List.append_nil]
  exact ⟨hval, hne, hdig⟩

theorem takeWhile_zero_eq_replicate (l : List Char) :
    l.takeWhile (fun c => c == '0') =
      List.replicate (l.takeWhile (fun c => c == '0')).length '0' := by
  induction l with
  | nil => rfl
  | cons c t ih =>
    by_cases h : c = '0'
    · subst h
      rw [List.takeWhile_cons]
      have hb : (('0' == '0') = true) := by decide
      rw [if_pos hb, List.length_cons, List.replicate_succ]
      exact congrArg _ ih
    · rw [List.takeWhile_cons]
      simp [h]

theorem trim_decomp (l : List Char) :
    ∃ k, l = trimTrailingZeros l ++ List.replicate k '0' ∧
      (trimTrailingZeros l).length + k = l.length := by
  refine ⟨(l.reverse.takeWhile (fun c => c == '0')).length, ?_, ?_⟩
  · conv_lhs => rw [← l.reverse_reverse,
      ← List.takeWhile_append_dropWhile (p := fun c => c == '0') (l := l.reverse)]
    rw [List.reverse_append, trimTrailingZeros]
    congr 1
    rw [takeWhile_zero_eq_replicate, List.reverse_replicate, List.length_replicate]
  · have h := congrArg List.length
      (List.takeWhile_append_dropWhile (p := fun c => c == '0') (l := l.reverse))
    rw [List.length_append, List.length_reverse] at h
    rw [trimTrailingZeros, List.length_reverse]
    omega

theorem splitAtDot_append (a b : List Char) (h : ∀ c ∈ a, c ≠ '.') :
    splitAtDot (a ++ '.' :: b) = (a, b) := by
  induction a with
  | nil => simp [splitAtDot]
  | cons c t ih =>
    have hc : c ≠ '.' := h c (List.mem_cons_self c t)
    have ht := ih (fun x hx => h x (List.mem_cons_of_mem c hx))
    rw [List.cons_append]
    show (if c = '.' then ([], t ++ '.' :: b)
      else (c :: (splitAtDot (t ++ '.' :: b)).1, (splitAtDot (t ++ '.' :: b)).2)) = (c :: t, b)
    rw [if_neg hc, ht]

theorem ofDigitsBE_replicate_append (k : Nat) (l : List Char) :
    ofDigitsBE (List.replicate k '0' ++ l) = ofDigitsBE l := by
  rw [ofDigitsBE_append, ofDigitsBE_replicate_zero]
  ring

theorem rescale_formatUnitsLocal (V D : Nat) :
    rescaleByPow10Round (formatUnitsLocal V D) D = V := by
  obtain ⟨hval, hne, hdig⟩ := decChars_spec V
  set L := padStartZeros (decChars V) (D + 1) with hLdef
  have hLlen : D + 1 ≤ L.length := by
    rw [hLdef, padStartZeros, List.length_append, List.length_replicate]
    omega
  have hLval : ofDigitsBE L = V := by
    rw [hLdef, padStartZeros, ofDigitsBE_replicate_append]
    exact hval
  have hLdig : ∀ c ∈ L, c.isDigit = true := by
    intro c hc
    rw [hLdef, padStartZeros] at hc
    rcases List.mem_append.mp hc with h | h
    · rw [List.eq_of_mem_replicate h]
      decide
    · exact hdig c h
  -- the integer and fractional slices
  set I := L.take (L.length - D) with hIdef
  set Fr := L.drop (L.length - D) with hFdef
  have hIlen : I.length = L.length - D := by
    rw [hIdef, List.length_take]
    omega
  have hFlen : Fr.length = D := by
    rw [hFdef, List.length_drop]
    omega
  have hIF : I ++ Fr = L := List.take_append_drop _ L
  have hIne : I.isEmpty = false := by
    cases hI : I with
    | nil => rw [hI] at hIlen; simp at hIlen; omega
    | cons a t => rfl
  have hsplitval : ofDigitsBE I * 10 ^ D + ofDigitsBE Fr = V := by
    rw [← hFlen, ← ofDigitsBE_append, hIF, hLval]
  -- the trimmed fractional part
  obtain ⟨k, hdec, hklen⟩ := trim_decomp Fr
  set t0 := trimTrailingZeros Fr with ht0def
  have hl0 : t0.length + k = D := by rw [← hFlen]; exact hklen
  have hFval : ofDigitsBE Fr = ofDigitsBE t0 * 10 ^ k := by
    conv_lhs => rw [hdec]
    rw [ofDigitsBE_append, ofDigitsBE_replicate_zero, List.length_replicate]
    ring
  -- the padded (displayed) fractional part
  set tr := padEndZeros t0 2 with htrdef
  have htrval : ofDigitsBE tr = ofDigitsBE t0 * 10 ^ (2 - t0.length) := by
    rw [htrdef, padEndZeros, ofDigitsBE_append, ofDigitsBE_replicate_zero, List.length_replicate]
    ring
  have htrlen : tr.length = t0.length + (2 - t0.length) := by
    rw [htrdef, padEndZeros, List.length_append, List.length_replicate]
  -- the formatted string is I ++ '.' :: tr
  have hfmt : formatUnitsLocal V D = ⟨I ++ '.' :: tr⟩ := by
    rw [formatUnitsLocal]
    simp only [← hLdef, ← hIdef, ← hFdef, ← ht0def, ← htrdef, hIne, Bool.false_eq_true,
      if_false]
  rw [hfmt, rescaleByPow10Round]
  have hsplit : splitAtDot (String.data ⟨I ++ '.' :: tr⟩) = (I, tr) := by
    show splitAtDot (I ++ '.' :: tr) = (I, tr)
    exact splitAtDot_append I tr (fun c hc =>
      ne_dot_of_isDigit (hLdig c (List.take_subset _ _ hc)))
  simp only [hsplit]
  -- now pure arithmetic
  set A := ofDigitsBE I with hA
  set t := ofDigitsBE t0 with ht
  set l0 := t0.length with hl0d
  have hVeq : V = A * 10 ^ D + t * 10 ^ k := by rw [← hsplitval, hFval]
  have hexp : (2 - l0) + D = (l0 + (2 - l0)) + k := by omega
  have hkey : (A * 10 ^ tr.length + t * 10 ^ (2 - l0)) * 10 ^ D
      = 10 ^ tr.length * (A * 10 ^ D + t * 10 ^ k) := by
    rw [htrlen]
    calc (A * 10 ^ (l0 + (2 - l0)) + t * 10 ^ (2 - l0)) * 10 ^ D
        = A * 10 ^ (l0 + (2 - l0)) * 10 ^ D + t * 10 ^ ((2 - l0) + D) := by
          rw [pow_add 10 (2 - l0) D]; ring
      _ = A * 10 ^ (l0 + (2 - l0)) * 10 ^ D + t * 10 ^ ((l0 + (2 - l0)) + k) := by rw [hexp]
      _ = 10 ^ (l0 + (2 - l0)) * (A * 10 ^ D + t * 10 ^ k) := by
          rw [pow_add 10 (l0 + (2 - l0)) k]; ring
  rw [htrval, hkey, ← hVeq]
  have hpos : 0 < 10 ^ tr.length := Nat.pos_pow_of_pos _ (by norm_num)
  rw [Nat.mul_add_div hpos]
  have : 10 ^ tr.length / 2 / 10 ^ tr.length = 0 :=
    Nat.div_eq_of_lt (Nat.div_lt_self hpos (by norm_num))
  rw [this]
  omega

/-- C9: the balance-formatting function satisfies the round-trip: for raw value
`V` and decimals `D` (here any `V` with at most `D + 12` digits), formatting
`V` and then re-scaling the decimal string by `10 ^ D` with round-to-nearest
recovers `V`; and at `D = 6` the values `0, 1, 999999, 5000000, 5123000`
format to `"0.00"`, `"0.000001"`, `"0.999999"`, `"5.00"`, `"5.123"`. -/
theorem c9_formatting_roundtrip (V D : Nat) (hV : V < 10 ^ (D + 12)) :
    rescaleByPow10Round (formatUnitsLocal V D) D = V
    ∧ formatUnitsLocal 0 6 = "0.00"
    ∧ formatUnitsLocal 1 6 = "0.000001"
    ∧ formatUnitsLocal 999999 6 = "0.999999"
    ∧ formatUnitsLocal 5000000 6 = "5.00"
    ∧ formatUnitsLocal 5123000 6 = "5.123" :=
  ⟨rescale_formatUnitsLocal V D, by decide, by decide, by decide, by decide, by decide⟩

/-- Witness for C9 at `V = 5123000`, `D = 6`. -/
theorem c9_formatting_roundtrip_witness :
    5123000 < 10 ^ (6 + 12)
    ∧ (rescaleByPow10Round (formatUnitsLocal 5123000 6) 6 = 5123000
      ∧ formatUnitsLocal 0 6 = "0.00"
      ∧ formatUnitsLocal 1 6 = "0.000001"
      ∧ formatUnitsLocal 999999 6 = "0.999999"
      ∧ formatUnitsLocal 5000000 6 = "5.00"
      ∧ formatUnitsLocal 5123000 6 = "5.123") :=
  ⟨by decide, c9_formatting_roundtrip 5123000 6 (by decide)⟩

/-! ## Watcher lemmas -/

open PaymentWatcher

theorem sendHook_ok (o : DeliveryOutcome) : sendHook o = .ok () := by
  cases o <;> rfl

theorem checkRouter_none (seeded notify : Bool) (inp : CycleInput) (r : TrackedRouter)
    (h : inp.query r.address = none) :
    checkRouter seeded notify inp r = { router := r, detected := none, hookAttempt := none } := by
  simp [checkRouter, h]

theorem checkRouter_unseeded (notify : Bool) (inp : CycleInput) (r : TrackedRouter) (b : Nat)
    (h : inp.query r.address = some b) :
    checkRouter false notify inp r =
      { router := { r with lastBalance := b, lastChecked := inp.now }
        detected := none, hookAttempt := none } := by
  simp [checkRouter, h]

theorem checkRouter_increase (notify : Bool) (inp : CycleInput) (r : TrackedRouter) (b : Nat)
    (h : inp.query r.address = some b) (hb : r.lastBalance < b) :
    checkRouter true notify inp r =
      { router := { r with lastBalance := b, lastChecked := inp.now }
        detected := some (mkEvent r r.lastBalance b inp.now)
        hookAttempt := if notify then some (mkEvent r r.lastBalance b inp.now) else none } := by
  cases notify <;> simp [checkRouter, h, hb, sendHook_ok]

theorem checkRouter_noincrease (notify : Bool) (inp : CycleInput) (r : TrackedRouter) (b : Nat)
    (h : inp.query r.address = some b) (hb : ¬ r.lastBalance < b) :
    checkRouter true notify inp r =
      { router := { r with lastBalance := b, lastChecked := inp.now }
        detected := none, hookAttempt := none } := by
  simp [checkRouter, h, hb]

theorem checkBalances_foldl (seeded notify : Bool) (inp : CycleInput) (reg : Registry)
    (acc : CycleOutcome) :
    reg.foldl (checkStep seeded notify inp) acc =
      { registry := acc.registry
          ++ reg.map (fun e => (e.1, (checkRouter seeded notify inp e.2).router))
        paymentsDetected := acc.paymentsDetected
          + (reg.filterMap (fun e => (checkRouter seeded notify inp e.2).detected)).length
        events := acc.events
          ++ reg.filterMap (fun e => (checkRouter seeded notify inp e.2).detected)
        hooks := acc.hooks
          ++ reg.filterMap (fun e => (checkRouter seeded notify inp e.2).hookAttempt) } := by
  induction reg generalizing acc with
  | nil => simp
  | cons e t ih =>
    rw [List.foldl_cons, ih]
    cases hdet : (checkRouter seeded notify inp e.2).detected <;>
      cases hhook : (checkRouter seeded notify inp e.2).hookAttempt <;>
        simp [checkStep, hdet, hhook, List.filterMap_cons] <;> omega

theorem checkBalances_spec (seeded notify : Bool) (inp : CycleInput) (reg : Registry)
    (pd : Nat) :
    checkBalances seeded notify inp reg pd =
      { registry := reg.map (fun e => (e.1, (checkRouter seeded notify inp e.2).router))
        paymentsDetected :=
          pd + (reg.filterMap (fun e => (checkRouter seeded notify inp e.2).detected)).length
        events := reg.filterMap (fun e => (checkRouter seeded notify inp e.2).detected)
        hooks := reg.filterMap (fun e => (checkRouter seeded notify inp e.2).hookAttempt) } := by
  rw [checkBalances, checkBalances_foldl]
  simp

theorem poll_dropped (cfg : WatcherConfig) (s : WatcherState) (inp : CycleInput)
    (hguard : s.isPolling = true) :
    poll cfg s inp = { state := s, events := [], hooks := [], guardWrites := [] } := by
  rw [poll, if_pos hguard]

theorem poll_throw (cfg : WatcherConfig) (s : WatcherState) (inp : CycleInput)
    (hguard : s.isPolling = false)
    (h : refreshRouters s.trackedRouters inp.discovery = .error ()) :
    poll cfg s inp =
      { state := { s with isPolling := false }, events := [], hooks := []
        guardWrites := [true, false] } := by
  simp only [poll, hguard, Bool.false_eq_true, if_false, h]

theorem poll_executed_ok (cfg : WatcherConfig) (s : WatcherState) (inp : CycleInput)
    (reg1 : Registry) (hguard : s.isPolling = false)
    (h : refreshRouters s.trackedRouters inp.discovery = .ok reg1) :
    poll cfg s inp =
      { state := { s with
          trackedRouters :=
            (checkBalances s.seeded cfg.notifyOnPayment inp reg1 s.paymentsDetected).registry
          paymentsDetected :=
            (checkBalances s.seeded cfg.notifyOnPayment inp reg1 s.paymentsDetected).paymentsDetected
          lastPollAt := some inp.now
          isPolling := false }
        events := (checkBalances s.seeded cfg.notifyOnPayment inp reg1 s.paymentsDetected).events
        hooks := (checkBalances s.seeded cfg.notifyOnPayment inp reg1 s.paymentsDetected).hooks
        guardWrites := [true, false] } := by
  simp only [poll, hguard, Bool.false_eq_true, if_false, h]

theorem checkRouter_unseeded_none (notify : Bool) (inp : CycleInput) (r : TrackedRouter) :
    (checkRouter false notify inp r).detected = none
    ∧ (checkRouter false notify inp r).hookAttempt = none := by
  cases hq : inp.query r.address
  · rw [checkRouter_none _ _ _ _ hq]
    exact ⟨rfl, rfl⟩
  · rw [checkRouter_unseeded _ _ _ _ hq]
    exact ⟨rfl, rfl⟩

theorem poll_unseeded (cfg : WatcherConfig) (s : WatcherState) (inp : CycleInput)
    (h : s.seeded = false) :
    (poll cfg s inp).events = [] ∧ (poll cfg s inp).hooks = [] := by
  by_cases hp : s.isPolling = true
  · rw [poll_dropped cfg s inp hp]
    exact ⟨rfl, rfl⟩
  · have hp' : s.isPolling = false := Bool.eq_false_iff.mpr hp
    rcases hd : refreshRouters s.trackedRouters inp.discovery with u | reg1
    · cases u
      rw [poll_throw cfg s inp hp' hd]
      exact ⟨rfl, rfl⟩
    · rw [poll_executed_ok cfg s inp reg1 hp' hd]
      show (checkBalances s.seeded cfg.notifyOnPayment inp reg1 s.paymentsDetected).events = []
        ∧ (checkBalances s.seeded cfg.notifyOnPayment inp reg1 s.paymentsDetected).hooks = []
      rw [h, checkBalances_spec]
      refine ⟨?_, ?_⟩ <;> rw [List.filterMap_eq_nil_iff] <;> intro e he
      · exact (checkRouter_unseeded_none _ _ _).1
      · exact (checkRouter_unseeded_none _ _ _).2

/-- C1: for a post-seed run of successful samples over one account, an increase
event is emitted exactly when the balance strictly rose, carrying the formatted
raw difference `Bi - B(i-1)`. -/
theorem c1_monotonic_detection (notify : Bool) (delivery : PaymentEvent → DeliveryOutcome)
    (now : Nat) (r : TrackedRouter) (bs : List Nat) :
    (runSamples notify delivery now r bs).2 =
      increaseEvents r.address r.name now r.lastBalance bs := by
  induction bs generalizing r with
  | nil => rfl
  | cons b rest ih =>
    by_cases hb : r.lastBalance < b
    · rw [runSamples, checkRouter_increase notify _ r b rfl hb]
      simp only [increaseEvents, if_pos hb]
      rw [ih]
      simp [mkEvent]
    · rw [runSamples, checkRouter_noincrease notify _ r b rfl hb]
      simp only [increaseEvents, if_neg hb]
      rw [ih]
      simp

/-- C2 counterexample: with one tracked account and a discovery call that
throws, the cycle is aborted: `lastPollAt` is NOT updated, and the account is
not sampled (its stored state stays untouched and no event can be produced),
contradicting the claim that sampling still proceeds and `lastPollAt` updates. -/
theorem c2_counterexample :
    (poll cfg0 stateA inputThrow).state.lastPollAt = none
    ∧ (poll cfg0 stateA inputThrow).state.trackedRouters = [("0xaa", routerA)]
    ∧ (poll cfg0 stateA inputThrow).events = [] :=
  ⟨rfl, rfl, rfl⟩

/-- C2 amended: discovery failures reported as a non-ok HTTP status or as
`success=false`/missing links are recovered locally (registry unchanged by
discovery, sampling proceeds over the existing accounts, `lastPollAt`
updates); but a discovery call that throws aborts the cycle at the poll-level
catch: the registry is unchanged and the guard released, while sampling is
skipped and `lastPollAt` is not updated. -/
theorem c2_amended_discovery_failures (cfg : WatcherConfig) (s : WatcherState)
    (inp : CycleInput) (st : Nat) (hguard : s.isPolling = false) :
    ((inp.discovery = .httpError st ∨ inp.discovery = .apiFailure) →
      (poll cfg s inp).state.trackedRouters =
          (checkBalances s.seeded cfg.notifyOnPayment inp s.trackedRouters
            s.paymentsDetected).registry
        ∧ (poll cfg s inp).state.trackedRouters.map Prod.fst
            = s.trackedRouters.map Prod.fst
        ∧ (poll cfg s inp).state.lastPollAt = some inp.now
        ∧ (poll cfg s inp).events =
            (checkBalances s.seeded cfg.notifyOnPayment inp s.trackedRouters
              s.paymentsDetected).events)
    ∧ (inp.discovery = .throwErr →
      (poll cfg s inp).state.trackedRouters = s.trackedRouters
        ∧ (poll cfg s inp).state.lastPollAt = s.lastPollAt
        ∧ (poll cfg s inp).events = []
        ∧ (poll cfg s inp).state.isPolling = false) := by
  constructor
  · intro hd
    have href : refreshRouters s.trackedRouters inp.discovery = .ok s.trackedRouters := by
      rcases hd with h | h <;> rw [h] <;> rfl
    rw [poll_executed_ok cfg s inp s.trackedRouters hguard href]
    refine ⟨rfl, ?_, rfl, rfl⟩
    show (checkBalances s.seeded cfg.notifyOnPayment inp s.trackedRouters
        s.paymentsDetected).registry.map Prod.fst = s.trackedRouters.map Prod.fst
    rw [checkBalances_spec]
    show (s.trackedRouters.map fun e =>
        (e.1, (checkRouter s.seeded cfg.notifyOnPayment inp e.2).router)).map Prod.fst
      = s.trackedRouters.map Prod.fst
    rw [List.map_map]
    rfl
  · intro hd
    have href : refreshRouters s.trackedRouters inp.discovery = .error () := by
      rw [hd]
      rfl
    rw [poll_throw cfg s inp hguard href]
    exact ⟨rfl, rfl, rfl, rfl⟩

/-- Witness for C2's amended claim. -/
theorem c2_amended_discovery_failures_witness :
    stateA.isPolling = false
    ∧ (((inputHttp500.discovery = .httpError 500 ∨ inputHttp500.discovery = .apiFailure) →
        (poll cfg0 stateA inputHttp500).state.trackedRouters =
            (checkBalances stateA.seeded cfg0.notifyOnPayment inputHttp500
              stateA.trackedRouters stateA.paymentsDetected).registry
          ∧ (poll cfg0 stateA inputHttp500).state.trackedRouters.map Prod.fst
              = stateA.trackedRouters.map Prod.fst
          ∧ (poll cfg0 stateA inputHttp500).state.lastPollAt = some inputHttp500.now
          ∧ (poll cfg0 stateA inputHttp500).events =
              (checkBalances stateA.seeded cfg0.notifyOnPayment inputHttp500
                stateA.trackedRouters stateA.paymentsDetected).events)
      ∧ (inputHttp500.discovery = .throwErr →
        (poll cfg0 stateA inputHttp500).state.trackedRouters = stateA.trackedRouters
          ∧ (poll cfg0 stateA inputHttp500).state.lastPollAt = stateA.lastPollAt
          ∧ (poll cfg0 stateA inputHttp500).events = []
          ∧ (poll cfg0 stateA inputHttp500).state.isPolling = false)) :=
  ⟨rfl, c2_amended_discovery_failures cfg0 stateA inputHttp500 500 rfl⟩

/-- C3 counterexample: an account first discovered AFTER the seeding cycle is
inserted with zero stored balance, so its very first successful sample (balance
5 > 0) DOES emit an increase event and a hook attempt, contradicting the claim
for accounts whatever cycle they were first discovered in. -/
theorem c3_counterexample :
    (poll cfg0 stateSeededEmpty inputDiscover5).events =
      [{ routerAddress := "0xAA", routerName := "Alpha"
         previousBalance := "0.00", newBalance := "0.000005"
         increase := "0.000005", detectedAt := 7 }]
    ∧ (poll cfg0 stateSeededEmpty inputDiscover5).hooks ≠ [] := by
  exact ⟨by decide, by decide⟩

/-- C3 amended: seeding suppresses events exactly for samples taken while the
watcher is not yet seeded (its first cycle): in any such cycle no increase
event is emitted and no notification attempted, regardless of the sampled
values. (An account first discovered after seeding does emit an event on its
first positive sample, as the counterexample shows.) -/
theorem c3_amended_seed_suppression (cfg : WatcherConfig) (s : WatcherState)
    (inp : CycleInput) (h : s.seeded = false) :
    (poll cfg s inp).events = [] ∧ (poll cfg s inp).hooks = [] :=
  poll_unseeded cfg s inp h

/-- Witness for C3's amended claim. -/
theorem c3_amended_seed_suppression_witness :
    stateUnseeded.seeded = false
    ∧ ((poll cfg0 stateUnseeded inputDiscover5).events = []
        ∧ (poll cfg0 stateUnseeded inputDiscover5).hooks = []) :=
  ⟨rfl, c3_amended_seed_suppression cfg0 stateUnseeded inputDiscover5 rfl⟩

/-- C4: a timer fire that arrives while a cycle is in flight is dropped
entirely (state, events and guard untouched); an executed cycle writes the
`isPolling` guard exactly `false → true → false`, on every exit path including
a thrown discovery error, leaving the guard clear. -/
theorem c4_reentrancy_guard (cfg : WatcherConfig) (s : WatcherState) (inp : CycleInput) :
    poll cfg { s with isPolling := true } inp
        = { state := { s with isPolling := true }, events := [], hooks := []
            guardWrites := [] }
    ∧ (poll cfg { s with isPolling := false } inp).guardWrites = [true, false]
    ∧ (poll cfg { s with isPolling := false } inp).state.isPolling = false := by
  refine ⟨poll_dropped cfg _ inp rfl, ?_, ?_⟩ <;>
    rcases hd : refreshRouters s.trackedRouters inp.discovery with u | reg1
  · cases u
    rw [poll_throw cfg { s with isPolling := false } inp rfl hd]
  · rw [poll_executed_ok cfg { s with isPolling := false } inp reg1 rfl hd]
  · cases u
    rw [poll_throw cfg { s with isPolling := false } inp rfl hd]
  · rw [poll_executed_ok cfg { s with isPolling := false } inp reg1 rfl hd]

theorem take_length_append {α : Type} (a b : List α) : (a ++ b).take a.length = a := by
  induction a with
  | nil => rfl
  | cons x t ih => simp [ih]

theorem drop_length_append {α : Type} (a b : List α) : (a ++ b).drop a.length = b := by
  induction a with
  | nil => rfl
  | cons x t ih => simp [ih]

/-- C5: if the balance query for one account fails, every other account is
still sampled with its usual result (the outcome agrees with the run that does
not contain the failing account at all), and the failing account's stored
entry — balance and timestamp — is kept in place unchanged. -/
theorem c5_partial_failure_isolation (seeded notify : Bool) (inp : CycleInput) (pd : Nat)
    (pre post : Registry) (kk : String) (rk : TrackedRouter)
    (hfail : inp.query rk.address = none) :
    (checkBalances seeded notify inp (pre ++ (kk, rk) :: post) pd).registry
        = (checkBalances seeded notify inp (pre ++ post) pd).registry.take pre.length
          ++ (kk, rk) ::
            (checkBalances seeded notify inp (pre ++ post) pd).registry.drop pre.length
    ∧ (checkBalances seeded notify inp (pre ++ (kk, rk) :: post) pd).paymentsDetected
        = (checkBalances seeded notify inp (pre ++ post) pd).paymentsDetected
    ∧ (checkBalances seeded notify inp (pre ++ (kk, rk) :: post) pd).events
        = (checkBalances seeded notify inp (pre ++ post) pd).events
    ∧ (checkBalances seeded notify inp (pre ++ (kk, rk) :: post) pd).hooks
        = (checkBalances seeded notify inp (pre ++ post) pd).hooks := by
  have hcr := checkRouter_none seeded notify inp rk hfail
  rw [checkBalances_spec, checkBalances_spec]
  refine ⟨?_, ?_, ?_, ?_⟩
  · show (pre ++ (kk, rk) :: post).map
        (fun e => (e.1, (checkRouter seeded notify inp e.2).router))
      = ((pre ++ post).map
          (fun e => (e.1, (checkRouter seeded notify inp e.2).router))).take pre.length
        ++ (kk, rk) ::
          ((pre ++ post).map
            (fun e => (e.1, (checkRouter seeded notify inp e.2).router))).drop pre.length
    rw [List.map_append, List.map_append, List.map_cons]
    rw [show pre.length = (pre.map
        (fun e => (e.1, (checkRouter seeded notify inp e.2).router))).length
      from (List.length_map pre _).symm]
    rw [take_length_append, drop_length_append]
    simp [hcr]
  · show pd + ((pre ++ (kk, rk) :: post).filterMap
        (fun e => (checkRouter seeded notify inp e.2).detected)).length = pd + _
    rw [List.filterMap_append, List.filterMap_append, List.filterMap_cons]
    simp [hcr]
  · show (pre ++ (kk, rk) :: post).filterMap
        (fun e => (checkRouter seeded notify inp e.2).detected) = _
    rw [List.filterMap_append, List.filterMap_append, List.filterMap_cons]
    simp [hcr]
  · show (pre ++ (kk, rk) :: post).filterMap
        (fun e => (checkRouter seeded notify inp e.2).hookAttempt) = _
    rw [List.filterMap_append, List.filterMap_append, List.filterMap_cons]
    simp [hcr]

/-- Witness for C5. -/
theorem c5_partial_failure_isolation_witness :
    inputQK.query routerK.address = none
    ∧ ((checkBalances true true inputQK
          ([("0xaa", routerA)] ++ ("0xkk", routerK) :: [("0xbb", routerB)]) 0).registry
        = (checkBalances true true inputQK
            ([("0xaa", routerA)] ++ [("0xbb", routerB)]) 0).registry.take
              [("0xaa", routerA)].length
          ++ ("0xkk", routerK) ::
            (checkBalances true true inputQK
              ([("0xaa", routerA)] ++ [("0xbb", routerB)]) 0).registry.drop
                [("0xaa", routerA)].length
      ∧ (checkBalances true true inputQK
            ([("0xaa", routerA)] ++ ("0xkk", routerK) :: [("0xbb", routerB)]) 0).paymentsDetected
          = (checkBalances true true inputQK
              ([("0xaa", routerA)] ++ [("0xbb", routerB)]) 0).paymentsDetected
      ∧ (checkBalances true true inputQK
            ([("0xaa", routerA)] ++ ("0xkk", routerK) :: [("0xbb", routerB)]) 0).events
          = (checkBalances true true inputQK
              ([("0xaa", routerA)] ++ [("0xbb", routerB)]) 0).events
      ∧ (checkBalances true true inputQK
            ([("0xaa", routerA)] ++ ("0xkk", routerK) :: [("0xbb", routerB)]) 0).hooks
          = (checkBalances true true inputQK
              ([("0xaa", routerA)] ++ [("0xbb", routerB)]) 0).hooks) :=
  ⟨rfl, c5_partial_failure_isolation true true inputQK 0
    [("0xaa", routerA)] [("0xbb", routerB)] "0xkk" routerK rfl⟩

theorem checkRouter_delivery_irrel (seeded notify : Bool) (inp : CycleInput)
    (d : PaymentEvent → DeliveryOutcome) (r : TrackedRouter) :
    checkRouter seeded notify { inp with delivery := d } r
      = checkRouter seeded notify inp r := by
  cases hq : inp.query r.address with
  | none => simp [checkRouter, hq]
  | some b => simp [checkRouter, hq, sendHook_ok]

/-- C6: notification-delivery failure is swallowed: `sendHook` returns
normally on every outcome, the whole sampling pass is independent of the
delivery outcomes, and a detected increase still increments
`paymentsDetected` when the hook POST fails with HTTP 500. -/
theorem c6_delivery_failure_swallowed (seeded notify : Bool) (inp : CycleInput)
    (reg : Registry) (pd : Nat) (d1 d2 : PaymentEvent → DeliveryOutcome)
    (k : String) (r : TrackedRouter) (b now : Nat) (disc : DiscoveryResult) :
    (∀ o : DeliveryOutcome, sendHook o = Except.ok ())
    ∧ checkBalances seeded notify { inp with delivery := d1 } reg pd
        = checkBalances seeded notify { inp with delivery := d2 } reg pd
    ∧ (checkBalances true notify
        { discovery := disc, query := fun _ => some (r.lastBalance + b + 1)
          delivery := fun _ => .httpError 500, now := now } [(k, r)] pd).paymentsDetected
        = pd + 1 := by
  refine ⟨sendHook_ok, ?_, ?_⟩
  · have hpt : ∀ e : String × TrackedRouter,
        checkRouter seeded notify { inp with delivery := d1 } e.2
          = checkRouter seeded notify { inp with delivery := d2 } e.2 := fun e =>
      (checkRouter_delivery_irrel seeded notify inp d1 e.2).trans
        (checkRouter_delivery_irrel seeded notify inp d2 e.2).symm
    rw [checkBalances_spec, checkBalances_spec]
    simp only [hpt]
  · have hcr := checkRouter_increase notify
      { discovery := disc, query := fun _ => some (r.lastBalance + b + 1)
        delivery := fun _ => .httpError 500, now := now } r (r.lastBalance + b + 1)
      rfl (by omega)
    rw [checkBalances_spec]
    simp [hcr]

theorem poll_timerArmed (cfg : WatcherConfig) (s : WatcherState) (inp : CycleInput) :
    (poll cfg s inp).state.timerArmed = s.timerArmed := by
  by_cases hp : s.isPolling = true
  · rw [poll_dropped cfg s inp hp]
  · have hp' : s.isPolling = false := Bool.eq_false_iff.mpr hp
    rcases hd : refreshRouters s.trackedRouters inp.discovery with u | reg1
    · cases u
      rw [poll_throw cfg s inp hp' hd]
    · rw [poll_executed_ok cfg s inp reg1 hp' hd]

theorem poll_guard_released (cfg : WatcherConfig) (s : WatcherState) (inp : CycleInput)
    (hp : s.isPolling = false) :
    (poll cfg s inp).guardWrites = [true, false]
    ∧ (poll cfg s inp).state.isPolling = false := by
  rcases hd : refreshRouters s.trackedRouters inp.discovery with u | reg1
  · cases u
    rw [poll_throw cfg s inp hp hd]
    exact ⟨rfl, rfl⟩
  · rw [poll_executed_ok cfg s inp reg1 hp hd]
    exact ⟨rfl, rfl⟩

/-- C7: `start()` arms the timer before the first cycle, so the status surface
reports `running = true` for every possible outcome of that cycle (including a
thrown discovery error); the initial cycle runs with `seeded` still false so
no event and no notification is produced; and `seeded` is set to true
afterwards unconditionally. -/
theorem c7_start_arms_timer_then_seeds (cfg : WatcherConfig) (inp : CycleInput) :
    (getStatus cfg (start cfg initialState inp).state).running = true
    ∧ (start cfg initialState inp).state.timerArmed = true
    ∧ (start cfg initialState inp).state.seeded = true
    ∧ (start cfg initialState inp).events = []
    ∧ (start cfg initialState inp).hooks = []
    ∧ (start cfg initialState inp).guardWrites = [true, false] := by
  have hev := poll_unseeded cfg { initialState with timerArmed := true } inp rfl
  have hta := poll_timerArmed cfg { initialState with timerArmed := true } inp
  have hgw := poll_guard_released cfg { initialState with timerArmed := true } inp rfl
  refine ⟨?_, ?_, rfl, hev.1, hev.2, hgw.1⟩
  · show (poll cfg { initialState with timerArmed := true } inp).state.timerArmed = true
    rw [hta]
  · show (poll cfg { initialState with timerArmed := true } inp).state.timerArmed = true
    rw [hta]

theorem upsertRouter_keys (reg : Registry) (link : DiscoveredLink) :
    (upsertRouter reg link).map Prod.fst = reg.map Prod.fst
    ∨ ((upsertRouter reg link).map Prod.fst
        = reg.map Prod.fst ++ [lowerAddr link.router_address]
      ∧ lowerAddr link.router_address ∉ reg.map Prod.fst) := by
  by_cases h : reg.hasKey (lowerAddr link.router_address) = true
  · left
    simp [upsertRouter, h]
  · right
    have hf : reg.hasKey (lowerAddr link.router_address) = false := Bool.eq_false_iff.mpr h
    refine ⟨by simp [upsertRouter, hf], ?_⟩
    intro hmem
    rcases List.mem_map.mp hmem with ⟨e, he, hfst⟩
    rw [Registry.hasKey, List.any_eq_false] at hf
    exact absurd (by rw [beq_iff_eq]; exact hfst) (hf e he)

theorem refresh_foldl_keys (links : List DiscoveredLink) (reg : Registry) :
    ∃ ext, (links.foldl upsertRouter reg).map Prod.fst = reg.map Prod.fst ++ ext := by
  induction links generalizing reg with
  | nil => exact ⟨[], by simp⟩
  | cons l ls ih =>
    rcases ih (upsertRouter reg l) with ⟨ext, hext⟩
    rcases upsertRouter_keys reg l with h | ⟨h, _⟩
    · exact ⟨ext, by rw [List.foldl_cons, hext, h]⟩
    · refine ⟨[lowerAddr l.router_address] ++ ext, ?_⟩
      rw [List.foldl_cons, hext, h, List.append_assoc]

theorem refresh_foldl_nodup (links : List DiscoveredLink) (reg : Registry)
    (h : (reg.map Prod.fst).Nodup) :
    ((links.foldl upsertRouter reg).map Prod.fst).Nodup := by
  induction links generalizing reg with
  | nil => exact h
  | cons l ls ih =>
    rw [List.foldl_cons]
    apply ih
    rcases upsertRouter_keys reg l with hk | ⟨hk, hnm⟩
    · rw [hk]
      exact h
    · rw [hk]
      refine List.Nodup.append h (List.nodup_singleton _) ?_
      intro x hx hx'
      rw [List.mem_singleton.mp hx'] at hx
      exact hnm hx

theorem checkBalances_keys (seeded notify : Bool) (inp : CycleInput) (reg : Registry)
    (pd : Nat) :
    (checkBalances seeded notify inp reg pd).registry.map Prod.fst = reg.map Prod.fst := by
  rw [checkBalances_spec]
  show (reg.map fun e => (e.1, (checkRouter seeded notify inp e.2).router)).map Prod.fst
    = reg.map Prod.fst
  rw [List.map_map]
  rfl

theorem poll_keys_extend (cfg : WatcherConfig) (s : WatcherState) (inp : CycleInput) :
    ∃ ext, (poll cfg s inp).state.trackedRouters.map Prod.fst
      = s.trackedRouters.map Prod.fst ++ ext := by
  by_cases hp : s.isPolling = true
  · rw [poll_dropped cfg s inp hp]
    exact ⟨[], by simp⟩
  · have hp' : s.isPolling = false := Bool.eq_false_iff.mpr hp
    rcases hd : refreshRouters s.trackedRouters inp.discovery with u | reg1
    · cases u
      rw [poll_throw cfg s inp hp' hd]
      exact ⟨[], by simp⟩
    · rw [poll_executed_ok cfg s inp reg1 hp' hd]
      show ∃ ext, (checkBalances s.seeded cfg.notifyOnPayment inp reg1
          s.paymentsDetected).registry.map Prod.fst = s.trackedRouters.map Prod.fst ++ ext
      rw [checkBalances_keys]
      cases d : inp.discovery <;> rw [d] at hd <;> simp only [refreshRouters] at hd
      · exact absurd hd (by simp)
      · rw [Except.ok.injEq] at hd
        exact ⟨[], by rw [← hd]; simp⟩
      · rw [Except.ok.injEq] at hd
        exact ⟨[], by rw [← hd]; simp⟩
      · rw [Except.ok.injEq] at hd
        rw [← hd]
        exact refresh_foldl_keys _ s.trackedRouters

theorem poll_keys_nodup (cfg : WatcherConfig) (s : WatcherState) (inp : CycleInput)
    (h : (s.trackedRouters.map Prod.fst).Nodup) :
    ((poll cfg s inp).state.trackedRouters.map Prod.fst).Nodup := by
  by_cases hp : s.isPolling = true
  · rw [poll_dropped cfg s inp hp]
    exact h
  · have hp' : s.isPolling = false := Bool.eq_false_iff.mpr hp
    rcases hd : refreshRouters s.trackedRouters inp.discovery with u | reg1
    · cases u
      rw [poll_throw cfg s inp hp' hd]
      exact h
    · rw [poll_executed_ok cfg s inp reg1 hp' hd]
      show ((checkBalances s.seeded cfg.notifyOnPayment inp reg1
          s.paymentsDetected).registry.map Prod.fst).Nodup
      rw [checkBalances_keys]
      cases d : inp.discovery <;> rw [d] at hd <;> simp only [refreshRouters] at hd
      · exact absurd hd (by simp)
      · rw [Except.ok.injEq] at hd
        rw [← hd]
        exact h
      · rw [Except.ok.injEq] at hd
        rw [← hd]
        exact h
      · rw [Except.ok.injEq] at hd
        rw [← hd]
        exact refresh_foldl_nodup _ s.trackedRouters h

/-- C8: the registry keeps exactly one entry per case-normalized address:
re-discovering a tracked address (in any casing) is a no-op that keeps the
first-seen entry — label and casing — untouched; a new address is appended
with zero balance and the zero ("never checked") timestamp; key uniqueness is
preserved by every cycle; and no cycle ever removes an entry (the key list
only ever grows by a suffix). -/
theorem c8_registry_invariants :
    (∀ (reg : Registry) (link : DiscoveredLink),
      reg.hasKey (lowerAddr link.router_address) = true → upsertRouter reg link = reg)
    ∧ (∀ (reg : Registry) (link : DiscoveredLink),
      reg.hasKey (lowerAddr link.router_address) = false →
        upsertRouter reg link = reg ++ [(lowerAddr link.router_address,
          { address := link.router_address, name := link.name.getD "Unnamed"
            lastBalance := 0, lastChecked := 0 })])
    ∧ (∀ (cfg : WatcherConfig) (s : WatcherState) (inp : CycleInput),
      (s.trackedRouters.map Prod.fst).Nodup →
        ((poll cfg s inp).state.trackedRouters.map Prod.fst).Nodup)
    ∧ (∀ (cfg : WatcherConfig) (s : WatcherState) (inp : CycleInput),
      ∃ ext, (poll cfg s inp).state.trackedRouters.map Prod.fst
        = s.trackedRouters.map Prod.fst ++ ext) :=
  ⟨fun reg link h => by simp [upsertRouter, h],
   fun reg link h => by simp [upsertRouter, h],
   poll_keys_nodup,
   poll_keys_extend⟩

/-- Witness for C8: re-discovering `0xAA` as `0xaA` is a no-op; a fresh
address is appended zero-initialized; a concrete poll preserves key
uniqueness and only extends the key list. -/
theorem c8_registry_invariants_witness :
    upsertRouter [("0xaa", routerA)] linkACased = [("0xaa", routerA)]
    ∧ upsertRouter [] linkA = [] ++ [(lowerAddr linkA.router_address,
        { address := linkA.router_address, name := linkA.name.getD "Unnamed"
          lastBalance := 0, lastChecked := 0 })]
    ∧ ((poll cfg0 stateA inputDiscover5).state.trackedRouters.map Prod.fst).Nodup
    ∧ ∃ ext, (poll cfg0 stateA inputDiscover5).state.trackedRouters.map Prod.fst
        = stateA.trackedRouters.map Prod.fst ++ ext :=
  ⟨c8_registry_invariants.1 [("0xaa", routerA)] linkACased (by decide),
   c8_registry_invariants.2.1 [] linkA (by decide),
   c8_registry_invariants.2.2.1 cfg0 stateA inputDiscover5 (by decide),
   c8_registry_invariants.2.2.2 cfg0 stateA inputDiscover5⟩

theorem checkRouter_notify (seeded : Bool) (inp : CycleInput) (r : TrackedRouter) :
    (checkRouter seeded false inp r).router = (checkRouter seeded true inp r).router
    ∧ (checkRouter seeded false inp r).detected = (checkRouter seeded true inp r).detected
    ∧ (checkRouter seeded false inp r).hookAttempt = none := by
  cases hq : inp.query r.address with
  | none =>
    rw [checkRouter_none seeded false inp r hq, checkRouter_none seeded true inp r hq]
    exact ⟨rfl, rfl, rfl⟩
  | some b =>
    cases seeded with
    | false =>
      rw [checkRouter_unseeded false inp r b hq, checkRouter_unseeded true inp r b hq]
      exact ⟨rfl, rfl, rfl⟩
    | true =>
      by_cases hb : r.lastBalance < b
      · rw [checkRouter_increase false inp r b hq hb, checkRouter_increase true inp r b hq hb]
        exact ⟨rfl, rfl, rfl⟩
      · rw [checkRouter_noincrease false inp r b hq hb,
          checkRouter_noincrease true inp r b hq hb]
        exact ⟨rfl, rfl, rfl⟩

/-- C10: with `notifyOnPayment = false` no hook POST is ever issued, while the
registry updates, the counter and the detected events are identical to the
`notifyOnPayment = true` run; the constructor defaults the flag to true; and a
concrete detected increase still updates stored state and increments the
counter with the flag off. -/
theorem c10_notify_gates_delivery_only (seeded : Bool) (inp : CycleInput) (reg : Registry)
    (pd : Nat) (g : Nat) (p : Option Nat) (k : String) (r : TrackedRouter) (b : Nat)
    (disc : DiscoveryResult) (d : PaymentEvent → DeliveryOutcome) (now : Nat) :
    (checkBalances seeded false inp reg pd).hooks = []
    ∧ (checkBalances seeded false inp reg pd).registry
        = (checkBalances seeded true inp reg pd).registry
    ∧ (checkBalances seeded false inp reg pd).paymentsDetected
        = (checkBalances seeded true inp reg pd).paymentsDetected
    ∧ (checkBalances seeded false inp reg pd).events
        = (checkBalances seeded true inp reg pd).events
    ∧ (mkWatcherConfig
        { gatewayPort := g, pollIntervalMs := p, notifyOnPayment := none }).notifyOnPayment
        = true
    ∧ checkBalances true false
        { discovery := disc, query := fun _ => some (r.lastBalance + b + 1)
          delivery := d, now := now } [(k, r)] pd
        = { registry :=
              [(k, { r with lastBalance := r.lastBalance + b + 1, lastChecked := now })]
            paymentsDetected := pd + 1
            events := [mkEvent r r.lastBalance (r.lastBalance + b + 1) now]
            hooks := [] } := by
  have hrt : (fun e : String × TrackedRouter =>
      (e.1, (checkRouter seeded false inp e.2).router))
        = fun e => (e.1, (checkRouter seeded true inp e.2).router) :=
    funext fun e => by rw [(checkRouter_notify seeded inp e.2).1]
  have hdet : (fun e : String × TrackedRouter =>
      (checkRouter seeded false inp e.2).detected)
        = fun e => (checkRouter seeded true inp e.2).detected :=
    funext fun e => by rw [(checkRouter_notify seeded inp e.2).2.1]
  refine ⟨?_, ?_, ?_, ?_, rfl, ?_⟩
  · rw [checkBalances_spec]
    show reg.filterMap (fun e => (checkRouter seeded false inp e.2).hookAttempt) = []
    rw [List.filterMap_eq_nil_iff]
    intro e he
    exact (checkRouter_notify seeded inp e.2).2.2
  · rw [checkBalances_spec, checkBalances_spec]
    show reg.map (fun e => (e.1, (checkRouter seeded false inp e.2).router)) = _
    rw [hrt]
  · rw [checkBalances_spec, checkBalances_spec]
    show pd + (reg.filterMap fun e => (checkRouter seeded false inp e.2).detected).length = _
    rw [hdet]
  · rw [checkBalances_spec, checkBalances_spec]
    show reg.filterMap (fun e => (checkRouter seeded false inp e.2).detected) = _
    rw [hdet]
  · have hcr := checkRouter_increase false
      { discovery := disc, query := fun _ => some (r.lastBalance + b + 1)
        delivery := d, now := now } r (r.lastBalance + b + 1) rfl (by omega)
    rw [checkBalances_spec]
    simp [hcr]
